import Mathlib

/-!
# libbcc: the compiler hook protocol and the RenderScript pass customizer

A shallow embedding of

* `src/include/bcc/Compiler.h` : the `Compiler::ErrorCode` enumeration and the
  eight default plugin callbacks of `bcc::Compiler`;
* `src/include/bcc/Renderscript/RSScript.h` : the fields of `bcc::RSScript`;
* `src/lib/Renderscript/RSCompiler.cpp` : `RSCompiler::beforeAddLTOPasses` and
  `RSCompiler::beforeExecuteLTOPasses`.

Conventions.

* A C string (`const char *`) and a `std::string` are a Lean `String`: the
  characters that precede the terminating NUL.  A null pointer is `none`.
* `std::vector<T>` and an `llvm::PassManager` are lists; `push_back` and
  `PassManager::add` append at the end.
* A C++ reference parameter that a function may mutate is returned in the
  result record.
* Undefined behaviour (dereferencing a null `RSInfo`, scanning a name table
  past its end) is the result `none`.
* The preprocessor symbol `PVR_RSC` is a Boolean parameter; with `false` the
  triple argument does not exist in the source and is ignored by the model.
* `PassManager::run` is instrumented: a module carries the log of the pass
  sequences that were run over it.
-/

set_option autoImplicit false

namespace bcc

/-! ## C strings -/

/-- The character a C string pointer points at: the head of the remaining
characters, or NUL (0) once they are exhausted. -/
def curChar : List Char → Nat
  | [] => 0
  | c :: _ => c.toNat

/-- C `strncmp(s1, s2, n)`: compares at most `n` characters, stops at the first
difference or at a NUL, and returns the difference of the two characters there
(0 when none differ).  Characters are compared by their code; against an ASCII
string such as "usc" the result is 0 for the same strings as the bytewise
comparison of the encoded text. -/
def strncmp (s1 s2 : List Char) (n : Nat) : Int :=
  match n with
  | 0 => 0
  | m + 1 =>
    if curChar s1 ≠ curChar s2 then (curChar s1 : Int) - (curChar s2 : Int)
    else if curChar s1 = 0 then 0
    else strncmp s1.tail s2.tail m

/-- Modelled from the spec: `llvm::Triple::getArchTypeName(llvm::Triple::usc)`
lives in the LLVM tree the library links against, not in this repository.  It
is the reserved architecture identifier of the platform that dispatches
foreach kernels natively; LLVM names an architecture after its enumerator,
here "usc". -/
def getArchTypeName_usc : String := "usc"

/-! ## Passes, pass managers, modules -/

/-- Modelled from the spec: an entry of `RSInfo::ExportForeachFuncListTy`
(declared in `RSInfo.h`, absent here): the kernel name (`first`) and its
metadata word (`second`). -/
abbrev ExportForeachFunc := String × Nat

/-- The passes this code creates, and any other pass of the backend. -/
inductive Pass where
  /-- The pass `llvm::createInternalizePass(export_symbols)`. -/
  | internalize (exportSymbols : List String)
  /-- The pass `createRSForEachExpandPass(funcs, pEnableStepOpt)`. -/
  | rsForEachExpand (funcs : List ExportForeachFunc) (pEnableStepOpt : Bool)
  /-- A pass contributed by the backend, identified by name. -/
  | backend (name : String)
  deriving DecidableEq, Repr

/-- An `llvm::PassManager`: the passes added so far, in the order added. -/
abbrev PassManager := List Pass

/-- The call `pPM.add(p)`. -/
def PassManager.add (pPM : PassManager) (p : Pass) : PassManager := pPM ++ [p]

/-- An `llvm::Module`, with the log of pass sequences run over it. -/
structure Module where
  moduleIdentifier : String
  runLog : List PassManager
  deriving DecidableEq, Repr

/-- The call `pm.run(module)`: the whole sequence held by `pm` is executed over
the module. -/
def PassManager.run (pm : PassManager) (module : Module) : Module :=
  { module with runLog := module.runLog ++ [pm] }

/-! ## RSInfo and RSScript -/

/-- Modelled from the spec: the Export Table `RSInfo` (declared in `RSInfo.h`,
absent here), with its three export lists: ordered sequences of names,
duplicates tolerated. -/
structure RSInfo where
  getExportVarNames : List String
  getExportFuncNames : List String
  getExportForeachFuncs : List ExportForeachFunc
  deriving DecidableEq, Repr

/-- The enumeration `RSScript::OptimizationLevel`. -/
inductive OptimizationLevel where
  | kOptLvl0 | kOptLvl1 | kOptLvl2 | kOptLvl3
  deriving DecidableEq, Repr

/-- A `bcc::RSScript`: its own fields and the module of its source
(`getSource().getModule()`). -/
structure RSScript where
  mInfo : Option RSInfo
  mCompilerVersion : Nat
  mOptimizationLevel : OptimizationLevel
  module : Module
  deriving DecidableEq, Repr

/-- What a plugin callback leaves behind: its return value and the script and
pass collection it received by reference. -/
structure HookResult (S : Type) where
  ret : Bool
  script : S
  pPM : PassManager

/-- What a plugin callback without a pass collection leaves behind. -/
structure ScriptHookResult (S : Type) where
  ret : Bool
  script : S

/-! ## Compiler: error codes and default plugin callbacks -/

namespace Compiler

/-- The enumeration `Compiler::ErrorCode`, in declaration order. -/
inductive ErrorCode where
  | kSuccess
  | kInvalidConfigNoTarget
  | kErrCreateTargetMachine
  | kErrSwitchTargetMachine
  | kErrNoTargetMachine
  | kErrTargetDataNoMemory
  | kErrMaterialization
  | kErrInvalidOutputFileState
  | kErrPrepareOutput
  | kPrepareCodeGenPass
  | kErrHookBeforeAddLTOPasses
  | kErrHookAfterAddLTOPasses
  | kErrHookBeforeExecuteLTOPasses
  | kErrHookAfterExecuteLTOPasses
  | kErrHookBeforeAddCodeGenPasses
  | kErrHookAfterAddCodeGenPasses
  | kErrHookBeforeExecuteCodeGenPasses
  | kErrHookAfterExecuteCodeGenPasses
  | kMaxErrorCode
  deriving DecidableEq, Repr

/-- The integer value a C++ enumerator has: its position in the declaration. -/
def ErrorCode.toNat : ErrorCode → Nat
  | .kSuccess => 0
  | .kInvalidConfigNoTarget => 1
  | .kErrCreateTargetMachine => 2
  | .kErrSwitchTargetMachine => 3
  | .kErrNoTargetMachine => 4
  | .kErrTargetDataNoMemory => 5
  | .kErrMaterialization => 6
  | .kErrInvalidOutputFileState => 7
  | .kErrPrepareOutput => 8
  | .kPrepareCodeGenPass => 9
  | .kErrHookBeforeAddLTOPasses => 10
  | .kErrHookAfterAddLTOPasses => 11
  | .kErrHookBeforeExecuteLTOPasses => 12
  | .kErrHookAfterExecuteLTOPasses => 13
  | .kErrHookBeforeAddCodeGenPasses => 14
  | .kErrHookAfterAddCodeGenPasses => 15
  | .kErrHookBeforeExecuteCodeGenPasses => 16
  | .kErrHookAfterExecuteCodeGenPasses => 17
  | .kMaxErrorCode => 18

variable {S : Type}

/-- The default `Compiler::beforeAddLTOPasses`: `{ return true; }`. -/
def beforeAddLTOPasses (pScript : S) (pPM : PassManager) (_mTriple : String) :
    HookResult S :=
  { ret := true, script := pScript, pPM := pPM }

/-- The default `Compiler::afterAddLTOPasses`: `{ return true; }`. -/
def afterAddLTOPasses (pScript : S) (pPM : PassManager) : HookResult S :=
  { ret := true, script := pScript, pPM := pPM }

/-- The default `Compiler::beforeExecuteLTOPasses`: `{ return true; }`. -/
def beforeExecuteLTOPasses (pScript : S) (pPM : PassManager)
    (_mTriple : String) : HookResult S :=
  { ret := true, script := pScript, pPM := pPM }

/-- The default `Compiler::afterExecuteLTOPasses`: `{ return true; }`. -/
def afterExecuteLTOPasses (pScript : S) : ScriptHookResult S :=
  { ret := true, script := pScript }

/-- The default `Compiler::beforeAddCodeGenPasses`: `{ return true; }`. -/
def beforeAddCodeGenPasses (pScript : S) (pPM : PassManager) : HookResult S :=
  { ret := true, script := pScript, pPM := pPM }

/-- The default `Compiler::afterAddCodeGenPasses`: `{ return true; }`. -/
def afterAddCodeGenPasses (pScript : S) (pPM : PassManager) : HookResult S :=
  { ret := true, script := pScript, pPM := pPM }

/-- The default `Compiler::beforeExecuteCodeGenPasses`: `{ return true; }`. -/
def beforeExecuteCodeGenPasses (pScript : S) (pPM : PassManager) :
    HookResult S :=
  { ret := true, script := pScript, pPM := pPM }

/-- The default `Compiler::afterExecuteCodeGenPasses`: `{ return true; }`. -/
def afterExecuteCodeGenPasses (pScript : S) : ScriptHookResult S :=
  { ret := true, script := pScript }

/-- The eight virtual plugin callbacks of `Compiler`, as a record a subclass
fills in. -/
structure Hooks (S : Type) where
  beforeAddLTOPasses : S → PassManager → String → HookResult S
  afterAddLTOPasses : S → PassManager → HookResult S
  beforeExecuteLTOPasses : S → PassManager → String → HookResult S
  afterExecuteLTOPasses : S → ScriptHookResult S
  beforeAddCodeGenPasses : S → PassManager → HookResult S
  afterAddCodeGenPasses : S → PassManager → HookResult S
  beforeExecuteCodeGenPasses : S → PassManager → HookResult S
  afterExecuteCodeGenPasses : S → ScriptHookResult S

/-- The callbacks of the base class. -/
def defaultHooks : Hooks S :=
  { beforeAddLTOPasses := Compiler.beforeAddLTOPasses
    afterAddLTOPasses := Compiler.afterAddLTOPasses
    beforeExecuteLTOPasses := Compiler.beforeExecuteLTOPasses
    afterExecuteLTOPasses := Compiler.afterExecuteLTOPasses
    beforeAddCodeGenPasses := Compiler.beforeAddCodeGenPasses
    afterAddCodeGenPasses := Compiler.afterAddCodeGenPasses
    beforeExecuteCodeGenPasses := Compiler.beforeExecuteCodeGenPasses
    afterExecuteCodeGenPasses := Compiler.afterExecuteCodeGenPasses }

/-! ### The pipeline driver -/

/-- The two stages of the pipeline. -/
inductive Stage where
  | lto | codeGen
  deriving DecidableEq, Repr

/-- The eight hook boundaries, in pipeline order. -/
inductive Hook where
  | beforeAddLTOPasses
  | afterAddLTOPasses
  | beforeExecuteLTOPasses
  | afterExecuteLTOPasses
  | beforeAddCodeGenPasses
  | afterAddCodeGenPasses
  | beforeExecuteCodeGenPasses
  | afterExecuteCodeGenPasses
  deriving DecidableEq, Repr

/-- The stage a hook boundary belongs to. -/
def Hook.stage : Hook → Stage
  | .beforeAddLTOPasses => .lto
  | .afterAddLTOPasses => .lto
  | .beforeExecuteLTOPasses => .lto
  | .afterExecuteLTOPasses => .lto
  | .beforeAddCodeGenPasses => .codeGen
  | .afterAddCodeGenPasses => .codeGen
  | .beforeExecuteCodeGenPasses => .codeGen
  | .afterExecuteCodeGenPasses => .codeGen

/-- The eight hook boundaries, listed. -/
def Hook.all : List Hook :=
  [.beforeAddLTOPasses, .afterAddLTOPasses, .beforeExecuteLTOPasses,
   .afterExecuteLTOPasses, .beforeAddCodeGenPasses, .afterAddCodeGenPasses,
   .beforeExecuteCodeGenPasses, .afterExecuteCodeGenPasses]

/-- What a spy on one `compile` call records: a hook invocation with the value
it returned, or the execution of a stage's assembled pass collection. -/
inductive Event where
  | hook (k : Hook) (ret : Bool)
  | execute (stage : Stage) (pm : PassManager)
  deriving DecidableEq, Repr

/-- The driver's view of the backend engine: the standard pass sequence of each
stage and the execution of a pass collection over a script's module. -/
structure Backend (S : Type) where
  ltoPasses : PassManager
  codeGenPasses : PassManager
  run : PassManager → S → S

/-- The driver's own fields: the triple of the target machine it holds (`none`
when unconfigured) and the LTO flag. -/
structure Driver where
  mTarget : Option String
  mEnableLTO : Bool

/-- The outcome of a `compile` call: the error code, the script afterwards, and
the spy record. -/
structure Outcome (S : Type) where
  code : ErrorCode
  script : S
  trace : List Event

/-- Modelled from the spec: `Compiler::runLTO` (in `Compiler.cpp`, absent
here), step 1 of `compile` in section 4.1: each hook in order, abort with the
boundary code on `false`; the standard sequence is added between the two add
hooks and the assembled collection is executed between the two execute
hooks. -/
def runLTO (h : Hooks S) (b : Backend S) (mTriple : String) (pScript : S) :
    Outcome S :=
  let r1 := h.beforeAddLTOPasses pScript [] mTriple
  if r1.ret = false then
    ⟨.kErrHookBeforeAddLTOPasses, r1.script, [.hook .beforeAddLTOPasses false]⟩
  else
  let r2 := h.afterAddLTOPasses r1.script (r1.pPM ++ b.ltoPasses)
  if r2.ret = false then
    ⟨.kErrHookAfterAddLTOPasses, r2.script,
      [.hook .beforeAddLTOPasses true, .hook .afterAddLTOPasses false]⟩
  else
  let r3 := h.beforeExecuteLTOPasses r2.script r2.pPM mTriple
  if r3.ret = false then
    ⟨.kErrHookBeforeExecuteLTOPasses, r3.script,
      [.hook .beforeAddLTOPasses true, .hook .afterAddLTOPasses true,
       .hook .beforeExecuteLTOPasses false]⟩
  else
  let r4 := h.afterExecuteLTOPasses (b.run r3.pPM r3.script)
  if r4.ret = false then
    ⟨.kErrHookAfterExecuteLTOPasses, r4.script,
      [.hook .beforeAddLTOPasses true, .hook .afterAddLTOPasses true,
       .hook .beforeExecuteLTOPasses true, .execute .lto r3.pPM,
       .hook .afterExecuteLTOPasses false]⟩
  else
    ⟨.kSuccess, r4.script,
      [.hook .beforeAddLTOPasses true, .hook .afterAddLTOPasses true,
       .hook .beforeExecuteLTOPasses true, .execute .lto r3.pPM,
       .hook .afterExecuteLTOPasses true]⟩

/-- Modelled from the spec: `Compiler::runCodeGen` (in `Compiler.cpp`, absent
here), step 2 of `compile` in section 4.1: the same four-hook structure around
assembling and executing the code-generation pass sequence. -/
def runCodeGen (h : Hooks S) (b : Backend S) (pScript : S) : Outcome S :=
  let r1 := h.beforeAddCodeGenPasses pScript []
  if r1.ret = false then
    ⟨.kErrHookBeforeAddCodeGenPasses, r1.script,
      [.hook .beforeAddCodeGenPasses false]⟩
  else
  let r2 := h.afterAddCodeGenPasses r1.script (r1.pPM ++ b.codeGenPasses)
  if r2.ret = false then
    ⟨.kErrHookAfterAddCodeGenPasses, r2.script,
      [.hook .beforeAddCodeGenPasses true, .hook .afterAddCodeGenPasses false]⟩
  else
  let r3 := h.beforeExecuteCodeGenPasses r2.script r2.pPM
  if r3.ret = false then
    ⟨.kErrHookBeforeExecuteCodeGenPasses, r3.script,
      [.hook .beforeAddCodeGenPasses true, .hook .afterAddCodeGenPasses true,
       .hook .beforeExecuteCodeGenPasses false]⟩
  else
  let r4 := h.afterExecuteCodeGenPasses (b.run r3.pPM r3.script)
  if r4.ret = false then
    ⟨.kErrHookAfterExecuteCodeGenPasses, r4.script,
      [.hook .beforeAddCodeGenPasses true, .hook .afterAddCodeGenPasses true,
       .hook .beforeExecuteCodeGenPasses true, .execute .codeGen r3.pPM,
       .hook .afterExecuteCodeGenPasses false]⟩
  else
    ⟨.kSuccess, r4.script,
      [.hook .beforeAddCodeGenPasses true, .hook .afterAddCodeGenPasses true,
       .hook .beforeExecuteCodeGenPasses true, .execute .codeGen r3.pPM,
       .hook .afterExecuteCodeGenPasses true]⟩

/-- Modelled from the spec: `Compiler::compile` to a stream (in `Compiler.cpp`,
absent here), section 4.1: `kErrNoTargetMachine` without a handle; otherwise
the LTO stage when the LTO flag is set, then, unless that stage failed, the
code-generation stage. -/
def compile (h : Hooks S) (b : Backend S) (d : Driver) (pScript : S) :
    Outcome S :=
  match d.mTarget with
  | none => ⟨.kErrNoTargetMachine, pScript, []⟩
  | some mTriple =>
    let lto : Outcome S :=
      if d.mEnableLTO then runLTO h b mTriple pScript
      else ⟨.kSuccess, pScript, []⟩
    if lto.code ≠ .kSuccess then lto
    else
      let cg := runCodeGen h b lto.script
      ⟨cg.code, cg.script, lto.trace ++ cg.trace⟩

end Compiler

/-! ## RSCompiler -/

namespace RSCompiler

/-- The loop `while (*special_functions != NULL) { push_back; ++ }` over the
table `RSExecutable::SpecialFunctionNames`; an entry is a name or `NULL`.
Running off the table without meeting `NULL` is undefined. -/
def pushSpecialFunctions :
    List (Option String) → List String → Option (List String)
  | [], _ => none
  | none :: _, export_symbols => some export_symbols
  | some name :: rest, export_symbols =>
    pushSpecialFunctions rest (export_symbols ++ [name])

/-- A loop `for (it = xs.begin(); it != xs.end(); it++) v.push_back(*it)`. -/
def pushAll (v : List String) (xs : List String) : List String :=
  xs.foldl (fun acc x => acc ++ [x]) v

/-- The body of the loop over the foreach list (lines 86-92): the name pushed
onto `expanded_foreach_funcs` for one kernel. -/
def expandedName (PVR_RSC : Bool) (mTriple : String) (f : ExportForeachFunc) :
    String :=
  let name := f.1
  if PVR_RSC then
    if strncmp mTriple.data getArchTypeName_usc.data 3 = 0 then name
    else name ++ ".expand"
  else name ++ ".expand"

/-- The loop filling `expanded_foreach_funcs` (lines 81-93). -/
def expandForeachFuncs (PVR_RSC : Bool) (mTriple : String)
    (export_foreach_func : List ExportForeachFunc) : List String :=
  export_foreach_func.foldl
    (fun expanded f => expanded ++ [expandedName PVR_RSC mTriple f]) []

/-- The function `RSCompiler::beforeAddLTOPasses`. -/
def beforeAddLTOPasses (PVR_RSC : Bool)
    (SpecialFunctionNames : List (Option String))
    (pScript : RSScript) (pPM : PassManager) (mTriple : String) :
    Option (HookResult RSScript) :=
  match pushSpecialFunctions SpecialFunctionNames [] with
  | none => none
  | some export_symbols =>
    match pScript.mInfo with
    | none => none
    | some info =>
      let export_symbols := pushAll export_symbols info.getExportVarNames
      let export_symbols := pushAll export_symbols info.getExportFuncNames
      let expanded_foreach_funcs :=
        expandForeachFuncs PVR_RSC mTriple info.getExportForeachFuncs
      let export_symbols := pushAll export_symbols expanded_foreach_funcs
      some { ret := true
             script := pScript
             pPM := pPM.add (Pass.internalize export_symbols) }

/-- The pass sequence `rs_passes` at the point where it is run (lines 115,
128-138). -/
def rsPasses (PVR_RSC : Bool) (info : RSInfo) (mTriple : String) :
    PassManager :=
  let rs_passes : PassManager := []
  if PVR_RSC then
    if strncmp mTriple.data getArchTypeName_usc.data 3 ≠ 0 then
      rs_passes.add (Pass.rsForEachExpand info.getExportForeachFuncs true)
    else rs_passes
  else
    rs_passes.add (Pass.rsForEachExpand info.getExportForeachFuncs true)

/-- The function `RSCompiler::beforeExecuteLTOPasses`.  The `ALOGE` diagnostic
of the failure branch writes to the system log only. -/
def beforeExecuteLTOPasses (PVR_RSC : Bool)
    (pScript : RSScript) (pPM : PassManager) (mTriple : String) :
    HookResult RSScript :=
  match pScript.mInfo with
  | none => { ret := false, script := pScript, pPM := pPM }
  | some info =>
    let rs_passes := rsPasses PVR_RSC info mTriple
    { ret := true
      script := { pScript with module := rs_passes.run pScript.module }
      pPM := pPM }

end RSCompiler


/-! ## Auxiliary facts -/

theorem charToNat_eq_iff (c d : Char) : c.toNat = d.toNat ↔ c = d := by
  constructor
  · intro h
    rw [← Char.ofNat_toNat c, ← Char.ofNat_toNat d, h]
  · rintro rfl; rfl

theorem strncmp_succ_eq_zero_iff (s1 s2 : List Char) (n : Nat) :
    strncmp s1 s2 (n + 1) = 0 ↔
      curChar s1 = curChar s2 ∧
        (curChar s1 = 0 ∨ strncmp s1.tail s2.tail n = 0) := by
  rw [strncmp]
  by_cases h : curChar s1 = curChar s2
  · by_cases h0 : curChar s1 = 0
    · have h0' : curChar s2 = 0 := h ▸ h0
      simp [h, h0']
    · have h0' : ¬ curChar s2 = 0 := fun e => h0 (h.trans e)
      simp [h, h0, h0']
  · have : (curChar s1 : Int) - (curChar s2 : Int) ≠ 0 := by omega
    simp [h, this]

/-- `strncmp(t, "usc", 3)` is 0 exactly when the first three characters of `t`
are `u`, `s`, `c`. -/
theorem strncmp_usc_eq_zero_iff (t : List Char) :
    strncmp t getArchTypeName_usc.data 3 = 0 ↔ t.take 3 = ['u', 's', 'c'] := by
  have hu : ∀ c : Char, c.toNat = 117 ↔ c = 'u' := fun c => charToNat_eq_iff c 'u'
  have hs : ∀ c : Char, c.toNat = 115 ↔ c = 's' := fun c => charToNat_eq_iff c 's'
  have hc : ∀ c : Char, c.toNat = 99 ↔ c = 'c' := fun c => charToNat_eq_iff c 'c'
  have h0 : ∀ (s1 s2 : List Char), strncmp s1 s2 0 = 0 := fun s1 s2 => by
    rw [strncmp]
  rcases t with _ | ⟨a, _ | ⟨b, _ | ⟨c, r⟩⟩⟩ <;>
    simp [strncmp_succ_eq_zero_iff, curChar, getArchTypeName_usc, hu, hs, hc, h0]
  · rintro rfl; decide
  · rintro rfl; refine ⟨by decide, ?_⟩; rintro rfl; decide
  · rintro rfl
    have hne : ¬ 'u'.toNat = 0 := by decide
    simp only [hne, false_or]
    constructor
    · rintro ⟨rfl, h⟩
      rcases h with h | h
      · exact absurd h (by decide)
      · exact ⟨rfl, h⟩
    · rintro ⟨rfl, rfl⟩; exact ⟨rfl, Or.inr rfl⟩

namespace RSCompiler

theorem pushAll_eq (v xs : List String) : pushAll v xs = v ++ xs := by
  unfold pushAll
  induction xs generalizing v with
  | nil => simp
  | cons x xs ih => simp [ih]

theorem pushSpecialFunctions_sentinel (fixed : List String)
    (rest : List (Option String)) (acc : List String) :
    pushSpecialFunctions (fixed.map some ++ none :: rest) acc
      = some (acc ++ fixed) := by
  induction fixed generalizing acc with
  | nil => simp [pushSpecialFunctions]
  | cons x xs ih => simp [pushSpecialFunctions, ih]

theorem expandForeachFuncs_eq_map (PVR_RSC : Bool) (mTriple : String)
    (fs : List ExportForeachFunc) :
    expandForeachFuncs PVR_RSC mTriple fs
      = fs.map (expandedName PVR_RSC mTriple) := by
  have key : ∀ (acc : List String),
      fs.foldl (fun expanded f => expanded ++ [expandedName PVR_RSC mTriple f])
        acc = acc ++ fs.map (expandedName PVR_RSC mTriple) := by
    induction fs with
    | nil => simp
    | cons f fs ih => intro acc; simp [ih]
  simpa [expandForeachFuncs] using key []

theorem expandedName_eq (PVR_RSC : Bool) (mTriple : String)
    (f : ExportForeachFunc) :
    expandedName PVR_RSC mTriple f
      = if PVR_RSC = true ∧ mTriple.data.take 3 = ['u', 's', 'c'] then f.1
        else f.1 ++ ".expand" := by
  cases PVR_RSC <;> simp [expandedName, strncmp_usc_eq_zero_iff]

theorem beforeAddLTOPasses_eq (PVR_RSC : Bool) (fixed : List String)
    (rest : List (Option String)) (pScript : RSScript) (info : RSInfo)
    (pPM : PassManager) (mTriple : String) (hinfo : pScript.mInfo = some info) :
    beforeAddLTOPasses PVR_RSC (fixed.map some ++ none :: rest) pScript pPM
        mTriple
      = some { ret := true
               script := pScript
               pPM := pPM ++ [Pass.internalize
                 (fixed ++ info.getExportVarNames ++ info.getExportFuncNames
                   ++ info.getExportForeachFuncs.map
                        (expandedName PVR_RSC mTriple))] } := by
  have h := pushSpecialFunctions_sentinel fixed rest []
  simp only [List.nil_append] at h
  simp [beforeAddLTOPasses, h, hinfo, pushAll_eq, expandForeachFuncs_eq_map,
    PassManager.add]

theorem append_expand_ne (s : String) : s ++ ".expand" ≠ s := by
  intro h
  have := congrArg String.length h
  simp [String.length_append] at this
  revert this
  decide


/-! ## The symbol list handed to the internalize pass -/

/-- C1: when the Export Table is present, `beforeAddLTOPasses` adds to the pass
collection one internalize pass whose symbol list is the concatenation of the
fixed entry points (the table entries before the `NULL` sentinel), the exported
variable names, the exported function names and the derived name of each
foreach kernel in kernel order; its length is the sum of the four lengths. -/
theorem C1_export_symbols_concat (PVR_RSC : Bool) (fixed : List String)
    (rest : List (Option String)) (pScript : RSScript) (info : RSInfo)
    (pPM : PassManager) (mTriple : String)
    (hinfo : pScript.mInfo = some info) :
    beforeAddLTOPasses PVR_RSC (fixed.map some ++ none :: rest) pScript pPM
        mTriple
      = some { ret := true
               script := pScript
               pPM := pPM ++ [Pass.internalize
                 (fixed ++ info.getExportVarNames ++ info.getExportFuncNames
                   ++ info.getExportForeachFuncs.map (fun f =>
                        if PVR_RSC = true ∧ mTriple.data.take 3 = ['u', 's', 'c']
                        then f.1 else f.1 ++ ".expand"))] }
    ∧ (fixed ++ info.getExportVarNames ++ info.getExportFuncNames
        ++ info.getExportForeachFuncs.map (fun f =>
            if PVR_RSC = true ∧ mTriple.data.take 3 = ['u', 's', 'c']
            then f.1 else f.1 ++ ".expand")).length
      = fixed.length + info.getExportVarNames.length
        + info.getExportFuncNames.length
        + info.getExportForeachFuncs.length := by
  refine ⟨?_, by simp [Nat.add_assoc]⟩
  rw [beforeAddLTOPasses_eq PVR_RSC fixed rest pScript info pPM mTriple hinfo]
  have hfun : expandedName PVR_RSC mTriple = fun f =>
      if PVR_RSC = true ∧ mTriple.data.take 3 = ['u', 's', 'c'] then f.1
      else f.1 ++ ".expand" := funext (expandedName_eq PVR_RSC mTriple)
  rw [hfun]

/-- The scenario of C1: fixed `init`, variable `g_x`, function `compute`,
kernel `blur`, a non-native triple. -/
theorem C1_export_symbols_concat_witness :
    beforeAddLTOPasses true [some "init", none]
        { mInfo := some ⟨["g_x"], ["compute"], [("blur", 0)]⟩
          mCompilerVersion := 0
          mOptimizationLevel := .kOptLvl3
          module := ⟨"script", []⟩ }
        [] "armv7-none-linux-gnueabi"
      = some { ret := true
               script :=
                 { mInfo := some ⟨["g_x"], ["compute"], [("blur", 0)]⟩
                   mCompilerVersion := 0
                   mOptimizationLevel := .kOptLvl3
                   module := ⟨"script", []⟩ }
               pPM := [Pass.internalize
                 ["init", "g_x", "compute", "blur.expand"]] } :=
  (C1_export_symbols_concat true ["init"] []
    { mInfo := some ⟨["g_x"], ["compute"], [("blur", 0)]⟩
      mCompilerVersion := 0
      mOptimizationLevel := .kOptLvl3
      module := ⟨"script", []⟩ }
    ⟨["g_x"], ["compute"], [("blur", 0)]⟩ [] "armv7-none-linux-gnueabi" rfl).1


/-- C2: on a build with the triple argument, the name pushed for a kernel `k`
is `k` when the first three characters of the triple are `usc` and `k.expand`
otherwise; a triple shorter than three characters gives `k.expand`. -/
theorem C2_expanded_name (fs : List ExportForeachFunc) (mTriple : String) :
    expandForeachFuncs true mTriple fs
      = fs.map (fun f =>
          if mTriple.data.take 3 = ['u', 's', 'c'] then f.1
          else f.1 ++ ".expand")
    ∧ (mTriple.data.length < 3 →
        expandForeachFuncs true mTriple fs
          = fs.map (fun f => f.1 ++ ".expand")) := by
  have hfun : expandedName true mTriple = fun f =>
      if mTriple.data.take 3 = ['u', 's', 'c'] then f.1
      else f.1 ++ ".expand" := by
    funext f
    simp [expandedName_eq]
  refine ⟨by rw [expandForeachFuncs_eq_map, hfun], ?_⟩
  intro hlen
  have hne : mTriple.data.take 3 ≠ ['u', 's', 'c'] := by
    intro h
    have := congrArg List.length h
    have hl : mTriple.length = mTriple.data.length := rfl
    simp at this
    omega
  rw [expandForeachFuncs_eq_map, hfun]
  simp [hne]

/-- A two-character triple: the kernel `blur` is kept as `blur.expand`. -/
theorem C2_expanded_name_witness :
    expandForeachFuncs true "us" [("blur", 0)] = ["blur.expand"] :=
  (C2_expanded_name [("blur", 0)] "us").2 (by decide)

/-- The native-dispatch scenario: the triple begins with `usc`, the kernel
name is kept unchanged. -/
theorem expandForeachFuncs_native_example :
    expandForeachFuncs true "usc-unknown-linux" [("blur", 0)] = ["blur"] := by
  decide

/-- C3 as stated fails: with `root` both a fixed entry point and a foreach
kernel, on the native-dispatch target the derived name `root` is present twice
in the symbol list. -/
theorem C3_counterexample :
    beforeAddLTOPasses true
        [some "root", some "init", some ".rs.dtor", none]
        { mInfo := some ⟨[], [], [("root", 0)]⟩
          mCompilerVersion := 0
          mOptimizationLevel := .kOptLvl3
          module := ⟨"script", []⟩ }
        [] "usc-unknown-linux"
      = some { ret := true
               script :=
                 { mInfo := some ⟨[], [], [("root", 0)]⟩
                   mCompilerVersion := 0
                   mOptimizationLevel := .kOptLvl3
                   module := ⟨"script", []⟩ }
               pPM := [Pass.internalize ["root", "init", ".rs.dtor", "root"]] }
    ∧ List.count (expandedName true "usc-unknown-linux" ("root", 0))
        ["root", "init", ".rs.dtor", "root"] = 2 :=
  ⟨rfl, by decide⟩

/-- C3, amended: every foreach kernel contributes one entry; the symbol list
is the fixed, variable and function names followed by the derived names in
kernel order.  Nothing is deduplicated: a name occurs in the list as often as
in those four lists together, so the derived name of a kernel occurs exactly
once in the list if and only if it is the derived name of no other kernel of
the list and is none of the fixed, variable or function names. -/
theorem C3_derived_names_last (PVR_RSC : Bool) (fixed : List String)
    (rest : List (Option String)) (pScript : RSScript) (info : RSInfo)
    (pPM : PassManager) (mTriple : String)
    (hinfo : pScript.mInfo = some info) :
    ∃ symbols : List String,
      beforeAddLTOPasses PVR_RSC (fixed.map some ++ none :: rest) pScript pPM
          mTriple
        = some { ret := true
                 script := pScript
                 pPM := pPM ++ [Pass.internalize symbols] }
      ∧ symbols.take (fixed.length + info.getExportVarNames.length
            + info.getExportFuncNames.length)
          = fixed ++ info.getExportVarNames ++ info.getExportFuncNames
      ∧ symbols.drop (fixed.length + info.getExportVarNames.length
            + info.getExportFuncNames.length)
          = info.getExportForeachFuncs.map (expandedName PVR_RSC mTriple)
      ∧ (∀ name : String,
          symbols.count name
            = (fixed ++ info.getExportVarNames
                ++ info.getExportFuncNames).count name
              + (info.getExportForeachFuncs.map
                  (expandedName PVR_RSC mTriple)).count name)
      ∧ (∀ f ∈ info.getExportForeachFuncs,
          (symbols.count (expandedName PVR_RSC mTriple f) = 1
            ↔ (info.getExportForeachFuncs.map
                  (expandedName PVR_RSC mTriple)).count
                  (expandedName PVR_RSC mTriple f) = 1
              ∧ expandedName PVR_RSC mTriple f
                  ∉ fixed ++ info.getExportVarNames
                      ++ info.getExportFuncNames)) := by
  refine ⟨_, beforeAddLTOPasses_eq PVR_RSC fixed rest pScript info pPM mTriple
    hinfo, ?_, ?_, ?_, ?_⟩
  · rw [List.take_append_of_le_length (by simp [Nat.add_assoc])]
    rw [List.take_of_length_le (by simp [Nat.add_assoc])]
  · rw [List.drop_append_of_le_length (by simp [Nat.add_assoc])]
    rw [List.drop_of_length_le (by simp [Nat.add_assoc])]
    simp
  · intro name
    exact List.count_append _ _ _
  · intro f hf
    have hpos : 0 < (info.getExportForeachFuncs.map
        (expandedName PVR_RSC mTriple)).count (expandedName PVR_RSC mTriple f) :=
      List.count_pos_iff.mpr (List.mem_map_of_mem _ hf)
    rw [List.count_append, ← List.count_eq_zero]
    omega

/-- Two kernels after two fixed names, a variable and a function: the derived
names `blur.expand`, `sharpen.expand` come last in kernel order, and
`sharpen.expand`, derived from one kernel and no other name of the table, is
present once. -/
theorem C3_derived_names_last_witness :
    ∃ symbols : List String,
      beforeAddLTOPasses true [some "root", some "init", none]
          { mInfo := some ⟨["g_x"], ["compute"], [("blur", 0), ("sharpen", 1)]⟩
            mCompilerVersion := 0
            mOptimizationLevel := .kOptLvl3
            module := ⟨"script", []⟩ }
          [] "armv7-none-linux-gnueabi"
        = some { ret := true
                 script :=
                   { mInfo := some
                       ⟨["g_x"], ["compute"], [("blur", 0), ("sharpen", 1)]⟩
                     mCompilerVersion := 0
                     mOptimizationLevel := .kOptLvl3
                     module := ⟨"script", []⟩ }
                 pPM := [Pass.internalize symbols] }
      ∧ symbols.take 4 = ["root", "init", "g_x", "compute"]
      ∧ symbols.drop 4 = ["blur.expand", "sharpen.expand"]
      ∧ symbols.count "sharpen.expand" = 1 := by
  obtain ⟨symbols, h1, h2, h3, _, h5⟩ :=
    C3_derived_names_last true ["root", "init"] []
      { mInfo := some ⟨["g_x"], ["compute"], [("blur", 0), ("sharpen", 1)]⟩
        mCompilerVersion := 0
        mOptimizationLevel := .kOptLvl3
        module := ⟨"script", []⟩ }
      ⟨["g_x"], ["compute"], [("blur", 0), ("sharpen", 1)]⟩ []
      "armv7-none-linux-gnueabi" rfl
  exact ⟨symbols, h1, h2, h3,
    (h5 ("sharpen", 1) (by simp)).mpr ⟨by decide, by decide⟩⟩

/-- Kernels `a`, `b`, `b`: the derived names are not pairwise distinct, yet
`a.expand` is present once and `b.expand` twice. -/
theorem beforeAddLTOPasses_repeated_kernel_example :
    beforeAddLTOPasses true [some "init", none]
        { mInfo := some ⟨[], [], [("a", 0), ("b", 0), ("b", 0)]⟩
          mCompilerVersion := 0
          mOptimizationLevel := .kOptLvl3
          module := ⟨"script", []⟩ }
        [] "armv7-none-linux-gnueabi"
      = some { ret := true
               script :=
                 { mInfo := some ⟨[], [], [("a", 0), ("b", 0), ("b", 0)]⟩
                   mCompilerVersion := 0
                   mOptimizationLevel := .kOptLvl3
                   module := ⟨"script", []⟩ }
               pPM := [Pass.internalize
                 ["init", "a.expand", "b.expand", "b.expand"]] }
    ∧ List.count "a.expand" ["init", "a.expand", "b.expand", "b.expand"] = 1
    ∧ List.count "b.expand" ["init", "a.expand", "b.expand", "b.expand"] = 2 :=
  ⟨rfl, by decide, by decide⟩

/-! ## The foreach-expand hook -/

/-- C4: `beforeExecuteLTOPasses` returns false exactly when the script has no
Export Table, and true exactly when it has one, whatever the triple. -/
theorem C4_beforeExecute_ret (PVR_RSC : Bool) (pScript : RSScript)
    (pPM : PassManager) (mTriple : String) :
    ((beforeExecuteLTOPasses PVR_RSC pScript pPM mTriple).ret = false
        ↔ pScript.mInfo = none)
    ∧ ((beforeExecuteLTOPasses PVR_RSC pScript pPM mTriple).ret = true
        ↔ pScript.mInfo.isSome = true) := by
  unfold beforeExecuteLTOPasses
  cases pScript.mInfo <;> simp

/-- C5: with the Export Table present, `beforeAddLTOPasses` returns true for
every content of the export lists, every pass collection and every triple. -/
theorem C5_beforeAdd_ret (PVR_RSC : Bool) (fixed : List String)
    (rest : List (Option String)) (pScript : RSScript) (info : RSInfo)
    (pPM : PassManager) (mTriple : String)
    (hinfo : pScript.mInfo = some info) :
    (beforeAddLTOPasses PVR_RSC (fixed.map some ++ none :: rest) pScript pPM
        mTriple).map (fun r => r.ret) = some true := by
  rw [beforeAddLTOPasses_eq PVR_RSC fixed rest pScript info pPM mTriple hinfo]
  rfl

/-- Empty export lists and a duplicated name: the hook still returns true. -/
theorem C5_beforeAdd_ret_witness :
    (beforeAddLTOPasses true [some "init", none]
        { mInfo := some ⟨["a", "a"], [], []⟩
          mCompilerVersion := 0
          mOptimizationLevel := .kOptLvl0
          module := ⟨"script", []⟩ }
        [Pass.backend "verifier"] "").map (fun r => r.ret) = some true :=
  C5_beforeAdd_ret true ["init"] []
    { mInfo := some ⟨["a", "a"], [], []⟩
      mCompilerVersion := 0
      mOptimizationLevel := .kOptLvl0
      module := ⟨"script", []⟩ }
    ⟨["a", "a"], [], []⟩ [Pass.backend "verifier"] "" rfl

/-- C6: on a build with the triple argument, the hook runs over the module one
pass sequence when the Export Table is present: the single foreach-expand pass
over the table's kernel list with step optimisation on when the triple does
not begin with `usc`, the empty sequence when it does; with the table absent
nothing is run. -/
theorem C6_beforeExecute_runs (pScript : RSScript) (pPM : PassManager)
    (mTriple : String) :
    (beforeExecuteLTOPasses true pScript pPM mTriple).script.module.runLog
      = pScript.module.runLog ++
          (match pScript.mInfo with
           | none => []
           | some info =>
             [if mTriple.data.take 3 = ['u', 's', 'c'] then []
              else [Pass.rsForEachExpand info.getExportForeachFuncs true]]) := by
  unfold beforeExecuteLTOPasses
  cases hinfo : pScript.mInfo with
  | none => simp
  | some info =>
    by_cases h : mTriple.data.take 3 = ['u', 's', 'c']
    · simp [rsPasses, PassManager.run, PassManager.add,
        strncmp_usc_eq_zero_iff, h]
    · simp [rsPasses, PassManager.run, PassManager.add,
        strncmp_usc_eq_zero_iff, h]

/-- C7: `beforeExecuteLTOPasses` returns the main pass collection as it
received it, on success and on failure. -/
theorem C7_beforeExecute_pPM (PVR_RSC : Bool) (pScript : RSScript)
    (pPM : PassManager) (mTriple : String) :
    (beforeExecuteLTOPasses PVR_RSC pScript pPM mTriple).pPM = pPM := by
  unfold beforeExecuteLTOPasses
  cases pScript.mInfo <;> rfl

/-- C10: with the Export Table present and a non-empty kernel list, the symbol
list of `beforeAddLTOPasses` ends in the `.expand` names exactly when
`beforeExecuteLTOPasses` runs the foreach-expand pass, and ends in the plain
kernel names exactly when it runs the empty sequence. -/
theorem C10_hooks_agree (PVR_RSC : Bool) (fixed : List String)
    (rest : List (Option String)) (pScript : RSScript) (info : RSInfo)
    (pPM pPM2 : PassManager) (mTriple : String)
    (hinfo : pScript.mInfo = some info)
    (hne : info.getExportForeachFuncs ≠ []) :
    (beforeAddLTOPasses PVR_RSC (fixed.map some ++ none :: rest) pScript pPM
          mTriple
        = some { ret := true
                 script := pScript
                 pPM := pPM ++ [Pass.internalize
                   (fixed ++ info.getExportVarNames ++ info.getExportFuncNames
                     ++ info.getExportForeachFuncs.map
                          (fun f => f.1 ++ ".expand"))] }
      ↔ (beforeExecuteLTOPasses PVR_RSC pScript pPM2 mTriple).script.module.runLog
          = pScript.module.runLog
              ++ [[Pass.rsForEachExpand info.getExportForeachFuncs true]])
    ∧ (beforeAddLTOPasses PVR_RSC (fixed.map some ++ none :: rest) pScript pPM
          mTriple
        = some { ret := true
                 script := pScript
                 pPM := pPM ++ [Pass.internalize
                   (fixed ++ info.getExportVarNames ++ info.getExportFuncNames
                     ++ info.getExportForeachFuncs.map (fun f => f.1))] }
      ↔ (beforeExecuteLTOPasses PVR_RSC pScript pPM2 mTriple).script.module.runLog
          = pScript.module.runLog ++ [[]]) := by
  rw [beforeAddLTOPasses_eq PVR_RSC fixed rest pScript info pPM mTriple hinfo]
  obtain ⟨f, fs, hfs⟩ := List.exists_cons_of_ne_nil hne
  have hrun : (beforeExecuteLTOPasses PVR_RSC pScript pPM2 mTriple).script.module.runLog
      = pScript.module.runLog ++ [rsPasses PVR_RSC info mTriple] := by
    simp [beforeExecuteLTOPasses, hinfo, PassManager.run]
  rw [hrun]
  by_cases h : PVR_RSC = true ∧ mTriple.data.take 3 = ['u', 's', 'c']
  · have hname : expandedName PVR_RSC mTriple = fun f => f.1 := by
      funext g; rw [expandedName_eq]; simp [h]
    have hpass : rsPasses PVR_RSC info mTriple = [] := by
      simp [rsPasses, h.1, strncmp_usc_eq_zero_iff, h.2]
    rw [hname, hpass, hfs]
    simp [append_expand_ne]
    intro hcontra
    exact absurd hcontra.symm (append_expand_ne f.1)
  · have hname : expandedName PVR_RSC mTriple = fun f => f.1 ++ ".expand" := by
      funext g; rw [expandedName_eq]; simp [h]
    have hpass : rsPasses PVR_RSC info mTriple
        = [Pass.rsForEachExpand info.getExportForeachFuncs true] := by
      cases hp : PVR_RSC
      · simp [rsPasses, PassManager.add]
      · have h3 : ¬ mTriple.data.take 3 = ['u', 's', 'c'] := fun e => h ⟨hp, e⟩
        simp [rsPasses, PassManager.add, strncmp_usc_eq_zero_iff, h3]
    rw [hname, hpass, hfs]
    simp [append_expand_ne]


/-- A script with one kernel, on a non-native and on the native triple. -/
theorem C10_hooks_agree_witness :
    (beforeAddLTOPasses true [some "init", none]
          { mInfo := some ⟨["g_x"], ["compute"], [("blur", 0)]⟩
            mCompilerVersion := 0
            mOptimizationLevel := .kOptLvl3
            module := ⟨"script", []⟩ }
          [] "usc-unknown-linux"
        = some { ret := true
                 script :=
                   { mInfo := some ⟨["g_x"], ["compute"], [("blur", 0)]⟩
                     mCompilerVersion := 0
                     mOptimizationLevel := .kOptLvl3
                     module := ⟨"script", []⟩ }
                 pPM := [Pass.internalize ["init", "g_x", "compute", "blur"]] }
      ↔ (beforeExecuteLTOPasses true
            { mInfo := some ⟨["g_x"], ["compute"], [("blur", 0)]⟩
              mCompilerVersion := 0
              mOptimizationLevel := .kOptLvl3
              module := ⟨"script", []⟩ }
            [] "usc-unknown-linux").script.module.runLog = [[]]) :=
  (C10_hooks_agree true ["init"] []
    { mInfo := some ⟨["g_x"], ["compute"], [("blur", 0)]⟩
      mCompilerVersion := 0
      mOptimizationLevel := .kOptLvl3
      module := ⟨"script", []⟩ }
    ⟨["g_x"], ["compute"], [("blur", 0)]⟩ [] [] "usc-unknown-linux" rfl
    (by decide)).2

end RSCompiler

namespace Compiler

/-! ## The base class callbacks and the driver -/

/-- C9: each of the eight default callbacks of `Compiler` returns true and
leaves the script and the pass collection as it received them. -/
theorem C9_default_hooks_noop {S : Type} (pScript : S) (pPM : PassManager)
    (mTriple : String) :
    beforeAddLTOPasses pScript pPM mTriple
        = { ret := true, script := pScript, pPM := pPM }
    ∧ afterAddLTOPasses pScript pPM
        = { ret := true, script := pScript, pPM := pPM }
    ∧ beforeExecuteLTOPasses pScript pPM mTriple
        = { ret := true, script := pScript, pPM := pPM }
    ∧ afterExecuteLTOPasses pScript = { ret := true, script := pScript }
    ∧ beforeAddCodeGenPasses pScript pPM
        = { ret := true, script := pScript, pPM := pPM }
    ∧ afterAddCodeGenPasses pScript pPM
        = { ret := true, script := pScript, pPM := pPM }
    ∧ beforeExecuteCodeGenPasses pScript pPM
        = { ret := true, script := pScript, pPM := pPM }
    ∧ afterExecuteCodeGenPasses pScript = { ret := true, script := pScript } :=
  ⟨rfl, rfl, rfl, rfl, rfl, rfl, rfl, rfl⟩

/-- With the callbacks of the base class every hook succeeds: `compile` returns
`kSuccess` after executing the LTO collection and then the code-generation
collection. -/
theorem compile_defaultHooks {S : Type} (b : Backend S) (mTriple : String)
    (pScript : S) :
    (compile defaultHooks b ⟨some mTriple, true⟩ pScript).code
        = ErrorCode.kSuccess
    ∧ (compile defaultHooks b ⟨some mTriple, true⟩ pScript).trace
        = [.hook .beforeAddLTOPasses true, .hook .afterAddLTOPasses true,
           .hook .beforeExecuteLTOPasses true, .execute .lto b.ltoPasses,
           .hook .afterExecuteLTOPasses true,
           .hook .beforeAddCodeGenPasses true,
           .hook .afterAddCodeGenPasses true,
           .hook .beforeExecuteCodeGenPasses true,
           .execute .codeGen b.codeGenPasses,
           .hook .afterExecuteCodeGenPasses true] := by
  constructor <;> simp [compile, runLTO, runCodeGen, defaultHooks,
    Compiler.beforeAddLTOPasses, Compiler.afterAddLTOPasses,
    Compiler.beforeExecuteLTOPasses, Compiler.afterExecuteLTOPasses,
    Compiler.beforeAddCodeGenPasses, Compiler.afterAddCodeGenPasses,
    Compiler.beforeExecuteCodeGenPasses, Compiler.afterExecuteCodeGenPasses]

end Compiler
end bcc
